import Mathlib

/-!
Verification development for the Deep-Research-AI-Agent pipeline
orchestration core (src/graph/workflow.py and the agents it drives).

The Python code is shallowly embedded: text is `List Char`, Python dicts
with a fixed key set become structures whose optional keys are `Option`
fields, and every external collaborator call (an LLM chain invocation or
a Tavily web search) is an oracle value carried in an `Oracles` record.
A chain invocation outcome is `Except Str Str`: `.ok t` models the call
returning text `t`, `.error e` models the underlying call raising an
exception with message `e`.
-/

set_option maxHeartbeats 1000000

namespace DeepResearch

abbrev Str := List Char

/-! ## Python string primitives -/

/-- Python `\s` / `str.strip` whitespace over the ASCII range
(space, tab, newline, carriage return, vertical tab, form feed). -/
def pyWsB (c : Char) : Bool :=
  c == ' ' || c == Char.ofNat 9 || c == Char.ofNat 10 || c == Char.ofNat 13 ||
    c == Char.ofNat 11 || c == Char.ofNat 12

/-- Python `str.strip()`: drop whitespace from both ends. -/
def pyStrip (s : Str) : Str :=
  ((s.dropWhile pyWsB).reverse.dropWhile pyWsB).reverse

/-- Python `s.split(pat, 1)` when `pat` occurs in `s`: the text before the
first occurrence of `pat` and the text after it; `none` when `pat` does not
occur. -/
def splitFirst (pat : Str) : Str → Option (Str × Str)
  | [] => if pat.isPrefixOf ([] : Str) then some ([], []) else none
  | c :: t =>
    if pat.isPrefixOf (c :: t) then some ([], (c :: t).drop pat.length)
    else (splitFirst pat t).map (fun ab => (c :: ab.1, ab.2))

/-- Python `pat in s` (substring containment). -/
def containsSub (pat s : Str) : Bool :=
  (splitFirst pat s).isSome

/-- Python `s.replace(pat, "")` for non-empty `pat`: remove every
non-overlapping occurrence, scanning left to right. -/
def removeAll (pat : Str) : Str → Str
  | [] => []
  | c :: t =>
    if pat ≠ [] ∧ pat.isPrefixOf (c :: t) then
      removeAll pat (t.drop (pat.length - 1))
    else
      c :: removeAll pat t
termination_by s => s.length
decreasing_by
  · simp only [List.length_cons]
    have h1 : (t.drop (pat.length - 1)).length = t.length - (pat.length - 1) :=
      List.length_drop _ _
    omega
  · simp only [List.length_cons]
    omega

/-- Python `s.split("\n")`: all segments, empty segments preserved. -/
def splitNL : Str → List Str
  | [] => [[]]
  | c :: t =>
    match splitNL t with
    | h :: r => if c == Char.ofNat 10 then [] :: h :: r else (c :: h) :: r
    | [] => [[]]

/-! ## The validation-split regex

`re.search(r'(\n\s*?-{3,}|\n\s*?#{1,6}\s+|\n\s*?\*{3,}|\n\s*?_{3,})\s*?\n', text)`
(citation_agent.py line 194), compiled by hand with Python backtracking
semantics: leftmost start wins; alternation branches are tried in order;
a lazy repetition tries the smallest count first, a greedy one the largest;
every repetition here is over a single character class, so a count is valid
exactly when that many leading characters satisfy the class. A partial match
function consumes from the current suffix and hands the rest to a
continuation; `matchAt` succeeds iff the full pattern matches at the start
of the given suffix, returning the unconsumed remainder. -/

def leadRun (p : Char → Bool) : Str → Nat
  | [] => 0
  | c :: t => if p c then leadRun p t + 1 else 0

def tryCounts (s : Str) (k : Str → Option Str) : List Nat → Option Str
  | [] => none
  | n :: rest =>
    match k (s.drop n) with
    | some r => some r
    | none => tryCounts s k rest

def countsUp (lo hi : Nat) : List Nat :=
  (List.range (hi + 1 - lo)).map (fun j => lo + j)

def countsDown (lo hi : Nat) : List Nat :=
  (List.range (hi + 1 - lo)).map (fun j => hi - j)

/-- Lazy repetition `p*?` (at least `lo`): smallest count first. -/
def repLazy (p : Char → Bool) (lo : Nat) (s : Str) (k : Str → Option Str) : Option Str :=
  let r := leadRun p s
  if lo ≤ r then tryCounts s k (countsUp lo r) else none

/-- Greedy unbounded repetition `p{lo,}`: largest count first. -/
def repGreedy (p : Char → Bool) (lo : Nat) (s : Str) (k : Str → Option Str) : Option Str :=
  let r := leadRun p s
  if lo ≤ r then tryCounts s k (countsDown lo r) else none

/-- Greedy bounded repetition `p{lo,hi}`: largest count first. -/
def repGreedyUpTo (p : Char → Bool) (lo hi : Nat) (s : Str) (k : Str → Option Str) : Option Str :=
  let r := min (leadRun p s) hi
  if lo ≤ r then tryCounts s k (countsDown lo r) else none

/-- Match one literal character. -/
def chomp (c : Char) (s : Str) (k : Str → Option Str) : Option Str :=
  match s with
  | [] => none
  | d :: t => if d == c then k t else none

def isDash (c : Char) : Bool := c == '-'
def isHash (c : Char) : Bool := c == '#'
def isStar (c : Char) : Bool := c == '*'
def isUnder (c : Char) : Bool := c == '_'

/-- The trailing `\s*?\n` of the pattern. -/
def tailSep (s : Str) : Option Str :=
  repLazy pyWsB 0 s (fun s2 => chomp (Char.ofNat 10) s2 some)

/-- One alternation branch of shape `\n\s*?X{3,}` followed by `\s*?\n`. -/
def branchRun (p : Char → Bool) (s : Str) : Option Str :=
  chomp (Char.ofNat 10) s (fun s1 =>
    repLazy pyWsB 0 s1 (fun s2 =>
      repGreedy p 3 s2 (fun s3 => tailSep s3)))

/-- The branch `\n\s*?#{1,6}\s+` followed by `\s*?\n`. -/
def branchHash (s : Str) : Option Str :=
  chomp (Char.ofNat 10) s (fun s1 =>
    repLazy pyWsB 0 s1 (fun s2 =>
      repGreedyUpTo isHash 1 6 s2 (fun s3 =>
        repGreedy pyWsB 1 s3 (fun s4 => tailSep s4))))

/-- Whole pattern at the start of `s`; branches in the pattern's order. -/
def matchAt (s : Str) : Option Str :=
  match branchRun isDash s with
  | some r => some r
  | none =>
    match branchHash s with
    | some r => some r
    | none =>
      match branchRun isStar s with
      | some r => some r
      | none => branchRun isUnder s

def reSearchAux (i : Nat) (s : Str) : Option (Nat × Nat) :=
  match matchAt s with
  | some rem => some (i, i + (s.length - rem.length))
  | none =>
    match s with
    | [] => none
    | _ :: t => reSearchAux (i + 1) t

/-- `re.search` of the separator pattern: `(start, end)` of the leftmost
match, or `none`. -/
def reSearch (s : Str) : Option (Nat × Nat) :=
  reSearchAux 0 s

/-! ## String constants -/

def mVR : Str := "## Validation Report".toList
def mFD : Str := "## Final Document".toList
def nlnl : Str := "\n\n".toList
def noIssuesS : Str := "No validation issues found.".toList
def dotS : Str := ".".toList
def errOccurredS : Str := "Error occurred: ".toList
def researchErrS : Str := "Research error: ".toList
def draftingErrS : Str := "Drafting error: missing synthesis".toList
def factCheckErrSynS : Str := "Fact-checking error: missing synthesis".toList
def factCheckErrDraftS : Str := "Fact-checking error: missing initial_draft".toList
def citationErrSynS : Str := "Citation error: missing synthesis".toList
def citationErrDraftS : Str := "Citation error: missing initial_draft".toList
def improveErrS : Str := "Improvement error: missing initial_draft".toList
def noFinalStateS : Str := "No final state was produced by the workflow.".toList
def noAnswerS : Str := "Research completed but no final answer was produced.".toList
def claimAnswerMsgS : Str := "no final answer was produced.".toList
def attrErrS : Str := "AttributeError: NoneType has no attribute get".toList
def errS : Str := "error".toList
def compS : Str := "complete".toList
def draftS : Str := "draft".toList
def fcS : Str := "fact_check".toList
def citS : Str := "citation".toList
def impS : Str := "improve".toList
def researchStatusS : Str := "research".toList
def ENDs : Str := "__end__".toList
def researchN : Str := "research_node".toList
def draftN : Str := "draft_node".toList
def fcN : Str := "fact_check_node".toList
def citN : Str := "citation_node".toList
def impN : Str := "improve_node".toList
def exitS : Str := "exit".toList
def basicS : Str := "basic".toList

/-! ## CitationAgent.validate_citations split logic (citation_agent.py 185-208)

The first heuristic fires when both section markers occur; it splits at the
first occurrence of the final-document marker, removes every occurrence of
the report marker from the part before it and strips both parts. Otherwise
the separator regex is searched; on a match the text is cut at the match's
start and end. Otherwise the text is split at the first blank line.
Otherwise the whole text is the document and the report is the fixed
message. The inner `none` arm of the first heuristic cannot occur: the
guard `containsSub mFD vr` is by definition `(splitFirst mFD vr).isSome`. -/
def splitValidation (vr : Str) : Str × Str :=
  if containsSub mVR vr && containsSub mFD vr then
    match splitFirst mFD vr with
    | some pq => (pyStrip (removeAll mVR pq.1), pyStrip pq.2)
    | none => (vr, vr)
  else
    match reSearch vr with
    | some se => (pyStrip (vr.take se.1), pyStrip (vr.drop se.2))
    | none =>
      match splitFirst nlnl vr with
      | some pq => (pyStrip pq.1, pyStrip pq.2)
      | none => (noIssuesS, vr)

/-! ## External collaborators

Every LLM chain built by `BaseAgent.create_chain` is invoked through a
wrapper (base_agent.py lines 127-145) that catches any exception from the
underlying call and turns it into the text `"Error occurred: <e>"`; the
no-LLM fallback chain likewise returns plain text. Each chain's underlying
call outcome is one oracle field (`.ok` text, or `.error` message for a
raised exception); the chains in this codebase are each invoked once per
stage run, so an input-independent outcome loses no generality. The Tavily
client is `tavilyOk` (did `TavilyClient` initialize) plus a per-query API
outcome. -/

structure Hit where
  title : Str
  url : Str
  content : Str
deriving DecidableEq

structure Oracles where
  queryGenLLM : Except Str Str
  synthesisLLM : Except Str Str
  draftLLM : Except Str Str
  improveLLM : Except Str Str
  factReportLLM : Except Str Str
  correctLLM : Except Str Str
  extractLLM : Except Str Str
  formatLLM : Except Str Str
  validateLLM : Except Str Str
  tavilyOk : Bool
  tavilyApi : Str → Except Str (List Hit)

/-- The chain wrapper `invoke_wrapper` (base_agent.py 127-143): the call's
text on success, `"Error occurred: <e>"` when the call raised `e`. It never
raises. -/
def invokeWrapper : Except Str Str → Str
  | .ok t => t
  | .error e => errOccurredS ++ e

/-- `TavilySearchClient.search` (tavily_client.py 34-95): an uninitialized
client or a raising API call both yield a response whose `results` list is
empty (the error dicts at lines 59-65 and 88-95); only `results` flows into
later logic, so the response is modelled by its hit list. -/
def tavilySearch (o : Oracles) (q : Str) : List Hit :=
  if o.tavilyOk = false then []
  else
    match o.tavilyApi q with
    | .ok hits => hits
    | .error _ => []

/-! ## ResearchAgent (research_agent.py) -/

/-- Query cleanup inside `generate_search_queries` (lines 99-106): if the
line contains a dot and the text before the first dot is all digits, keep
only the stripped text after the dot; always strip the result. -/
def cleanQuery (q : Str) : Str :=
  let q2 :=
    match splitFirst dotS q with
    | some pq =>
      if !(pyStrip pq.1).isEmpty && (pyStrip pq.1).all Char.isDigit then pyStrip pq.2
      else q
    | none => q
  pyStrip q2

/-- `ResearchAgent.generate_search_queries` (lines 76-113). The chain
output is stripped, split on newlines and cleaned. The `except` branch
(lines 110-113) that would return `[research_topic]` is unreachable: the
chain callable is `invoke_wrapper` (or the no-LLM fallback), both of which
catch every exception and return a text dict, and the remaining body is
total; so the reachable behavior is the `try` body applied to the wrapper
output. `topic` and `n` only feed the prompt. -/
def ResearchAgent.generate_search_queries (o : Oracles) (_topic : Str) (_n : Nat) :
    List Str :=
  let text := invokeWrapper o.queryGenLLM
  (splitNL (pyStrip text)).map cleanQuery

/-- The research-results dict: keys are optional because the initial state
carries an empty dict for it. The agent's success path populates all of
them. The formatted-results text (lines 132-161) only feeds the synthesis
prompt, whose outcome is the oracle, so it is not materialized. -/
structure ResearchResultsD where
  research_topic : Option Str := none
  queries : Option (List Str) := none
  search_results : Option (List (Str × List Hit)) := none
  synthesis : Option Str := none
deriving DecidableEq

/-- `ResearchAgent.run` (lines 163-219): generate queries, search each,
synthesize. Every sub-step catches its own failures (the chain wrappers and
the Tavily client), so the `except` branch at lines 210-219 is unreachable
and the function is total. -/
def ResearchAgent.run (o : Oracles) (topic : Str) (n : Nat) (_depth : Str) :
    ResearchResultsD :=
  let queries := ResearchAgent.generate_search_queries o topic n
  let srs := queries.map (fun q => (q, tavilySearch o q))
  { research_topic := some topic
    queries := some queries
    search_results := some srs
    synthesis := some (invokeWrapper o.synthesisLLM) }

/-! ## DraftingAgent (drafting_agent.py) -/

structure DraftResult where
  initial_draft : Option Str := none
  final_answer : Option Str := none
deriving DecidableEq

/-- `DraftingAgent.draft_answer` (lines 86-110); its `except` branch is
unreachable (the chain wrapper never raises). -/
def DraftingAgent.draft_answer (o : Oracles) (_topic _synthesis : Str) : Str :=
  invokeWrapper o.draftLLM

/-- `DraftingAgent.improve_answer` (lines 112-136); its `except` branch
(return the input draft) is unreachable for the same reason. -/
def DraftingAgent.improve_answer (o : Oracles) (_topic _draft : Str) : Str :=
  invokeWrapper o.improveLLM

/-- `DraftingAgent.run` (lines 138-178); the workflow calls it with
`improve=False`. -/
def DraftingAgent.run (o : Oracles) (topic synthesis : Str) (improve : Bool) :
    DraftResult :=
  let d := DraftingAgent.draft_answer o topic synthesis
  let fa := if improve then DraftingAgent.improve_answer o topic d else d
  { initial_draft := some d, final_answer := some fa }

/-! ## FactCheckingAgent (fact_checking_agent.py) -/

structure FCResult where
  fact_check_report : Option Str := none
  corrected_draft : Option Str := none
deriving DecidableEq

/-- `FactCheckingAgent.run`: obtain a report and a corrected draft; both
sub-calls catch their own failures, so `run` is total and always populates
both keys. -/
def FactCheckingAgent.run (o : Oracles) (_topic _synthesis _draft : Str) : FCResult :=
  { fact_check_report := some (invokeWrapper o.factReportLLM)
    corrected_draft := some (invokeWrapper o.correctLLM) }

/-! ## CitationAgent (citation_agent.py) -/

structure CitResult where
  citation_analysis : Option Str := none
  formatted_draft : Option Str := none
  validation_report : Option Str := none
  final_draft : Option Str := none
deriving DecidableEq

/-- `CitationAgent.validate_citations` (lines 167-221): invoke the
validation chain and split its output text; the `except` branch (lines
215-221) is unreachable because the chain wrapper never raises and the
split logic is total. The formatted draft only feeds the prompt. -/
def CitationAgent.validate_citations (o : Oracles) (_formatted_draft : Str) :
    Str × Str :=
  splitValidation (invokeWrapper o.validateLLM)

/-- `CitationAgent.run` (lines 223-270): extraction, formatting,
validation; each sub-step catches internally, so all keys are populated. -/
def CitationAgent.run (o : Oracles) (_topic _synthesis _draft : Str) : CitResult :=
  let analysis := invokeWrapper o.extractLLM
  let formatted := invokeWrapper o.formatLLM
  let v := CitationAgent.validate_citations o formatted
  { citation_analysis := some analysis
    formatted_draft := some formatted
    validation_report := some v.1
    final_draft := some v.2 }

/-! ## Workflow state and nodes (workflow.py 22-199)

`ResearchState` is a TypedDict whose keys are always present (the initial
state fills all of them); the per-stage result dicts start as `{}`, which
the all-`none` structure values model. A missing sub-key read raises a
KeyError that the node's `except` turns into an error state; the exact
Python message text (`"Drafting error: 'synthesis'"` etc.) is modelled by
a fixed constant per failure site, since no claim depends on its spelling
beyond the stage prefix. -/

structure WFState where
  research_topic : Str
  research_depth : Str
  num_queries : Nat
  research_results : ResearchResultsD
  draft_result : DraftResult
  fact_check_result : FCResult
  citation_result : CitResult
  final_answer : Str
  status : Str
  error : Str
deriving DecidableEq

/-- The side-channel global `_latest_research_result` value written by the
improve node (workflow.py 183-190): a dict with exactly these four keys. -/
structure GResult where
  research_topic : Str
  status : Str
  research_results : ResearchResultsD
  final_answer : Str
deriving DecidableEq

/-- A node function: state plus the current side-channel value to new state
plus side-channel value (only the improve node touches the channel). -/
abbrev NodeFn := WFState → Option GResult → WFState × Option GResult

/-- The `research` node body (workflow.py 52-70) over an agent outcome:
`.ok` advances to draft, a raised exception becomes the
`"Research error: ..."` error state. -/
def research_node_on (outcome : Except Str ResearchResultsD) (st : WFState) : WFState :=
  match outcome with
  | .ok rr => { st with research_results := rr, status := draftS }
  | .error e => { st with status := errS, error := researchErrS ++ e }

/-- The wired `research` node: `ResearchAgent.run` is total (every failure
is caught inside the agent), so the node's `except` branch receives no
exception; the composition wraps the agent output in `.ok`. -/
def research_node (o : Oracles) : NodeFn := fun st c =>
  (research_node_on (.ok (ResearchAgent.run o st.research_topic st.num_queries
    st.research_depth)) st, c)

/-- The `draft` node (workflow.py 72-95): reading a missing synthesis key
raises, which the `except` converts to an error state. -/
def draft_node (o : Oracles) : NodeFn := fun st c =>
  match st.research_results.synthesis with
  | none => ({ st with status := errS, error := draftingErrS }, c)
  | some syn =>
    ({ st with draft_result := DraftingAgent.run o st.research_topic syn false
               status := fcS }, c)

/-- The `fact_check` node (workflow.py 97-121); the synthesis key is read
before the initial draft, so a missing synthesis wins. -/
def fact_check_node (o : Oracles) : NodeFn := fun st c =>
  match st.research_results.synthesis with
  | none => ({ st with status := errS, error := factCheckErrSynS }, c)
  | some syn =>
    match st.draft_result.initial_draft with
    | none => ({ st with status := errS, error := factCheckErrDraftS }, c)
    | some d =>
      ({ st with fact_check_result := FactCheckingAgent.run o st.research_topic syn d
                 status := citS }, c)

/-- The `citation` node (workflow.py 123-152): prefer the corrected draft
when the key is present, else the initial draft (raising if that too is
missing). -/
def citation_node (o : Oracles) : NodeFn := fun st c =>
  match st.research_results.synthesis with
  | none => ({ st with status := errS, error := citationErrSynS }, c)
  | some syn =>
    let dtp : Option Str :=
      match st.fact_check_result.corrected_draft with
      | some cd => some cd
      | none => st.draft_result.initial_draft
    match dtp with
    | none => ({ st with status := errS, error := citationErrDraftS }, c)
    | some d =>
      ({ st with citation_result := CitationAgent.run o st.research_topic syn d
                 status := impS }, c)

/-- The `improve` node (workflow.py 154-199): select the best available
draft (citation final draft, else corrected draft, else initial draft),
improve it, set `final_answer` and `status = "complete"`, and write the
side-channel global. If all three drafts are missing the dict read raises
and the `except` produces an error state without touching the channel. -/
def improve_node (o : Oracles) : NodeFn := fun st c =>
  let sel : Option Str :=
    match st.citation_result.final_draft with
    | some d => some d
    | none =>
      match st.fact_check_result.corrected_draft with
      | some d => some d
      | none => st.draft_result.initial_draft
  match sel with
  | none => ({ st with status := errS, error := improveErrS }, c)
  | some d =>
    let improved := DraftingAgent.improve_answer o st.research_topic d
    ({ st with final_answer := improved, status := compS },
     some { research_topic := st.research_topic
            status := compS
            research_results := st.research_results
            final_answer := improved })

/-! ## Pipeline wiring (workflow.py 201-268)

The graph's conditional routing functions terminate the run on an error
status and otherwise name the next node in the fixed order; the engine is
modelled as executing the nodes sequentially under these routing functions
(the unconditional edges at lines 209-213 duplicate the non-error
successor). -/

def route_after_research (st : WFState) : Str :=
  if st.status = errS then ENDs else draftN

def route_after_draft (st : WFState) : Str :=
  if st.status = errS then ENDs else fcN

def route_after_fact_check (st : WFState) : Str :=
  if st.status = errS then ENDs else citN

def route_after_citation (st : WFState) : Str :=
  if st.status = errS then ENDs else impN

def route_after_improve (_st : WFState) : Str := ENDs

/-- One wired stage: its node name, node function and routing function. -/
abbrev StageSpec := Str × NodeFn × (WFState → Str)

/-- A snapshot of one executed stage: node name, its returned state and the
side-channel value after it ran. -/
abbrev Snapshot := Str × WFState × Option GResult

/-- Execute stages in order: run the stage, record its snapshot, stop when
its routing function answers END, otherwise continue with the next. -/
def execStages : List StageSpec → WFState → Option GResult → List Snapshot
  | [], _, _ => []
  | sp :: rest, st, c =>
    (sp.1, sp.2.1 st c) ::
      (if sp.2.2 (sp.2.1 st c).1 = ENDs then []
       else execStages rest (sp.2.1 st c).1 (sp.2.1 st c).2)

/-- The five stages in the declared order with the source routing
functions, generic in the node functions (the wiring is independent of the
node bodies). -/
def wStages (fR fD fF fC fI : NodeFn) : List StageSpec :=
  [(researchN, fR, route_after_research),
   (draftN, fD, route_after_draft),
   (fcN, fF, route_after_fact_check),
   (citN, fC, route_after_citation),
   (impN, fI, route_after_improve)]

def wiredTrace (fR fD fF fC fI : NodeFn) (st : WFState) (c : Option GResult) :
    List Snapshot :=
  execStages (wStages fR fD fF fC fI) st c

/-- The initial state (workflow.py 339-350). -/
def initialState (topic depth : Str) (n : Nat) : WFState :=
  { research_topic := topic
    research_depth := depth
    num_queries := n
    research_results := {}
    draft_result := {}
    fact_check_result := {}
    citation_result := {}
    final_answer := []
    status := researchStatusS
    error := [] }

/-- The concrete pipeline of one run: the five source nodes from the
initial state, the side channel starting empty (the reset at line 330). -/
def runPipeline (o : Oracles) (topic depth : Str) (n : Nat) : List Snapshot :=
  wiredTrace (research_node o) (draft_node o) (fact_check_node o)
    (citation_node o) (improve_node o) (initialState topic depth n) none

/-- The names of the stages that changed the side channel, given the value
it held before the first listed stage ran. -/
def channelWrites : Option GResult → List Snapshot → List Str
  | _, [] => []
  | c, (nm, _, c2) :: rest => (if c2 ≠ c then [nm] else []) ++ channelWrites c2 rest

/-- The side-channel value after the last executed stage. -/
def finalChannel (tr : List Snapshot) : Option GResult :=
  match tr.getLast? with
  | some s => s.2.2
  | none => none

/-! ## Runner loop and reconciler (workflow.py 356-508)

The driving engine surfaces a stream of events of unreliable shape; an
event is modelled as extracted state values (the keys the loop reads,
each optional since the dict shape is untrusted) plus optional metadata.
`extract_values_from_state` (lines 270-306) only normalizes the event
object's shape and is absorbed into this representation. -/

structure EvState where
  final_answer : Option Str := none
  status : Option Str := none
  error : Option Str := none
  research_results : Option ResearchResultsD := none
deriving DecidableEq

structure EvMeta where
  event_type : Str
  node_name : Str
deriving DecidableEq

structure Event where
  vals : EvState
  meta : Option EvMeta := none
deriving DecidableEq

/-- The loop accumulators (workflow.py 356-369): the raw last state, the
complete-state captured at improve exit, the last non-empty final-answer
text, and the per-node exit states (`last_node_name` is written but never
read after the loop and is omitted). -/
structure LoopAcc where
  final_state_raw : Option EvState := none
  complete_state : Option EvState := none
  final_answer_text : Str := []
  lastResearch : Option EvState := none
  lastDraft : Option EvState := none
  lastImprove : Option EvState := none
deriving DecidableEq

def initAcc : LoopAcc := {}

/-- Python truthiness of an event-state dict restricted to the modelled
keys: non-empty iff some key is present. -/
def truthyEv (c : EvState) : Bool :=
  c.final_answer.isSome || c.status.isSome || c.error.isSome || c.research_results.isSome

/-- Python `"final_answer" in d and d["final_answer"]`. -/
def evFATruthy (c : EvState) : Bool :=
  match c.final_answer with
  | some a => !a.isEmpty
  | none => false

/-- One loop iteration (workflow.py 373-424): record the raw state, capture
any non-empty final answer, and on an exit event store the node's state —
for the improve node additionally capture `complete_state` (status forced
to complete) whenever the `final_answer` key is present. -/
def stepEvent (acc : LoopAcc) (e : Event) : LoopAcc :=
  let acc1 := { acc with final_state_raw := some e.vals }
  let acc2 :=
    match e.vals.final_answer with
    | some a => if a.isEmpty then acc1 else { acc1 with final_answer_text := a }
    | none => acc1
  match e.meta with
  | some m =>
    if m.event_type = exitS then
      if m.node_name = researchN then { acc2 with lastResearch := some e.vals }
      else if m.node_name = draftN then { acc2 with lastDraft := some e.vals }
      else if m.node_name = impN then
        let acc3 := { acc2 with lastImprove := some e.vals }
        match e.vals.final_answer with
        | some _ => { acc3 with complete_state := some { e.vals with status := some compS } }
        | none => acc3
      else acc2
    else acc2
  | none => acc2

/-- The stream loop with its `break` on an error status (lines 421-424):
the erroring event is still fully processed; later events are not. -/
def processEvents (acc : LoopAcc) : List Event → LoopAcc
  | [] => acc
  | e :: rest =>
    let acc2 := stepEvent acc e
    if e.vals.status = some errS then acc2 else processEvents acc2 rest

/-- The result dict of `run_research_workflow`: optional keys reflect that
different return sites include different keys. -/
structure RWResult where
  research_topic : Str
  status : Str
  final_answer : Option Str := none
  research_results : Option ResearchResultsD := none
  error : Option Str := none
deriving DecidableEq

/-- Rule 1's return value: the global dict itself (workflow.py 433-436). -/
def rwOfG (r : GResult) : RWResult :=
  { research_topic := r.research_topic
    status := r.status
    research_results := some r.research_results
    final_answer := some r.final_answer }

/-- The empty dict produced by `.get("research_results", {})`. -/
def emptyRR : ResearchResultsD := {}

/-- The tail of the post-stream selection (workflow.py 468-508): the
missing-final-state error, then the last-state check (rule 5), then the
fallback that forces an error status and, absent an explicit error in the
final state, the fixed no-answer message. -/
def reconcileFinal (topic : Str) (acc : LoopAcc) : Except Str RWResult :=
  match acc.final_state_raw with
  | none =>
    .ok { research_topic := topic, status := errS, error := some noFinalStateS }
  | some fs =>
    if evFATruthy fs then
      .ok { research_topic := topic
            status := compS
            research_results := some (fs.research_results.getD emptyRR)
            final_answer := fs.final_answer }
    else
      if fs.status.getD errS = errS ∧ fs.error.isSome then
        .ok { research_topic := topic
              status := fs.status.getD errS
              research_results := fs.research_results
              error := fs.error }
      else
        .ok { research_topic := topic
              status := errS
              research_results := fs.research_results
              error := some noAnswerS }

/-- Rule 4 (workflow.py 458-466): the improve-node exit state, requiring
only presence of the `final_answer` key (which also makes the dict
truthy). -/
def reconcileR4 (topic : Str) (acc : LoopAcc) : Except Str RWResult :=
  match acc.lastImprove with
  | some li =>
    if truthyEv li && li.final_answer.isSome then
      .ok { research_topic := topic
            status := compS
            research_results := some (li.research_results.getD emptyRR)
            final_answer := some (li.final_answer.getD []) }
    else reconcileFinal topic acc
  | none => reconcileFinal topic acc

/-- Rule 3 (workflow.py 448-456): any captured non-empty final-answer text.
When no research-node exit was recorded, `last_node_state["research"] `
is `None` and `.get` on it raises — modelled as the `.error` outcome. -/
def reconcileR3 (topic : Str) (acc : LoopAcc) : Except Str RWResult :=
  if acc.final_answer_text ≠ [] then
    match acc.lastResearch with
    | none => .error attrErrS
    | some rs =>
      .ok { research_topic := topic
            status := compS
            final_answer := some acc.final_answer_text
            research_results := some (rs.research_results.getD emptyRR) }
  else reconcileR4 topic acc

/-- Rule 2 (workflow.py 438-446): the captured complete state, when truthy
with a non-empty final answer. -/
def reconcileR2 (topic : Str) (acc : LoopAcc) : Except Str RWResult :=
  match acc.complete_state with
  | some c =>
    if truthyEv c && evFATruthy c then
      .ok { research_topic := topic
            status := compS
            research_results := some (c.research_results.getD emptyRR)
            final_answer := c.final_answer }
    else reconcileR3 topic acc
  | none => reconcileR3 topic acc

/-- The post-stream selection (workflow.py 433-508): the side-channel
global first, then the fallback chain. -/
def reconcile (topic : Str) (g : Option GResult) (acc : LoopAcc) :
    Except Str RWResult :=
  match g with
  | some r => .ok (rwOfG r)
  | none => reconcileR2 topic acc

/-- `run_research_workflow` (workflow.py 308-508): the side channel is
reset before the pipeline starts (line 330, the `none` the pipeline's
channel threading begins from), the two skip flags are forced to `False`
before anything reads them (lines 352-354) and are never consulted, the
engine executes the five stages, the loop folds the streamed events, and
the post-stream selection reconciles. The streamed events are a parameter
because the engine's event shapes are untrusted; the side-channel value is
the one the executed pipeline actually produced. -/
def run_research_workflow (o : Oracles) (topic depth : Str) (n : Nat)
    (skip_fact_check skip_citations : Bool) (events : List Event) :
    Except Str RWResult :=
  let _ := skip_fact_check
  let _ := skip_citations
  let _forcedFC := false
  let _forcedCit := false
  let tr := runPipeline o topic depth n
  let g := finalChannel tr
  reconcile topic g (processEvents initAcc events)

/-! ## Projection helpers for closed statements -/

def statusAnswerOf : Except Str RWResult → Option (Str × Option Str)
  | .ok r => some (r.status, r.final_answer)
  | .error _ => none

def statusErrorOf : Except Str RWResult → Option (Str × Option Str)
  | .ok r => some (r.status, r.error)
  | .error _ => none

/-- Rule 2 of the post-stream selection does not fire: no captured complete
state, or its final answer is absent or empty. -/
def ruleTwoFails (acc : LoopAcc) : Prop :=
  acc.complete_state = none ∨
    ∃ c, acc.complete_state = some c ∧
      (c.final_answer = none ∨ c.final_answer = some [])

/-- Rule 4 does not fire: no improve-exit state, or its `final_answer` key
is absent. -/
def ruleFourFails (acc : LoopAcc) : Prop :=
  acc.lastImprove = none ∨
    ∃ li, acc.lastImprove = some li ∧ li.final_answer = none

/-- Routing functions that answer END on an error status. -/
def routeStopsOnError (l : List StageSpec) : Prop :=
  ∀ sp ∈ l, ∀ s : WFState, s.status = errS → sp.2.2 s = ENDs

/-! ## Concrete inputs for evaluations -/

def t0S : Str := "solar panel efficiency".toList
def ansAS : Str := "answer alpha".toList
def ansBS : Str := "answer beta".toList
def boomS : Str := "boom".toList
def errBoomS : Str := "Error occurred: boom".toList
def okTextS : Str := "ok".toList
def goodAnswerS : Str := "a good final answer".toList

def oBase : Oracles :=
  { queryGenLLM := .ok okTextS
    synthesisLLM := .ok okTextS
    draftLLM := .ok okTextS
    improveLLM := .ok goodAnswerS
    factReportLLM := .ok okTextS
    correctLLM := .ok okTextS
    extractLLM := .ok okTextS
    formatLLM := .ok okTextS
    validateLLM := .ok okTextS
    tavilyOk := true
    tavilyApi := fun _ => .ok [] }

def oEmptyImprove : Oracles := { oBase with improveLLM := .ok [] }
def oSynthFail : Oracles := { oBase with synthesisLLM := .error boomS }
def oQueryFail : Oracles :=
  { oBase with queryGenLLM := .error boomS, tavilyApi := fun _ => .error boomS }

def st0W : WFState := initialState t0S basicS 2
def stErrW : WFState := { st0W with status := errS }
def stCitW : WFState := { st0W with citation_result := { final_draft := some ansAS } }
def stFCW : WFState := { st0W with fact_check_result := { corrected_draft := some ansAS } }
def stDrW : WFState := { st0W with draft_result := { initial_draft := some ansAS } }

def errNodeW : NodeFn := fun st c => ({ st with status := errS }, c)
def passNodeW : NodeFn := fun st c => (st, c)

def gW : GResult :=
  { research_topic := t0S, status := compS, research_results := {}, final_answer := ansAS }
def csW : EvState := { final_answer := some ansAS, status := some compS }
def csEmptyW : EvState := { final_answer := some [] }
def rsEvW : EvState := { research_results := some {} }
def fsW : EvState := { final_answer := some ansAS }
def fsEmptyW : EvState := {}

def accR2W : LoopAcc := { complete_state := some csW }
def accR3W : LoopAcc := { final_answer_text := ansBS, lastResearch := some rsEvW }
def accR4W : LoopAcc := { complete_state := some csEmptyW, lastImprove := some csEmptyW }
def accR5W : LoopAcc := { final_state_raw := some fsW }
def accR23W : LoopAcc := { complete_state := some csW, final_answer_text := ansBS }
def accC8W : LoopAcc := { final_state_raw := some fsEmptyW }

def ev8 : Event := { vals := {} }

def w1v : Str := "## Validation Report\nAll good.\n## Final Document\nBody text.".toList
def w1pre : Str := "## Validation Report\nAll good.\n".toList
def w1post : Str := "\nBody text.".toList
def w2v : Str := "report text\n---\nrest".toList
def w3v : Str := "para one\n\npara two".toList
def w3p1 : Str := "para one".toList
def w3p2 : Str := "para two".toList
def w4v : Str := "single paragraph only".toList

/-! ## Helper lemmas -/

theorem isPrefixOf_eq_append (p : Str) :
    ∀ s : Str, p.isPrefixOf s = true → s = p ++ s.drop p.length := by
  induction p with
  | nil => intro s _; simp
  | cons a as ih =>
    intro s h
    cases s with
    | nil => simp [List.isPrefixOf] at h
    | cons b bs =>
      simp only [List.isPrefixOf, Bool.and_eq_true, beq_iff_eq] at h
      obtain ⟨hab, hpre⟩ := h
      subst hab
      have hbs := ih bs hpre
      simp only [List.length_cons, List.drop_succ_cons, List.cons_append]
      rw [← hbs]

theorem isPrefixOf_append_self (p t : Str) : p.isPrefixOf (p ++ t) = true := by
  induction p with
  | nil => simp [List.isPrefixOf]
  | cons a as ih => simp [List.isPrefixOf, ih]

theorem isPrefixOf_nil_eq (p : Str) (h : p.isPrefixOf ([] : Str) = true) : p = [] := by
  cases p with
  | nil => rfl
  | cons a as => simp [List.isPrefixOf] at h

theorem splitFirst_sound (pat : Str) :
    ∀ s a b : Str, splitFirst pat s = some (a, b) → s = a ++ pat ++ b := by
  intro s
  induction s with
  | nil =>
    intro a b h
    simp only [splitFirst] at h
    split at h
    · rename_i hpre
      simp only [Option.some.injEq, Prod.mk.injEq] at h
      obtain ⟨ha, hb⟩ := h
      subst ha; subst hb
      simp [isPrefixOf_nil_eq pat hpre]
    · exact absurd h (by simp)
  | cons c t ih =>
    intro a b h
    simp only [splitFirst] at h
    split at h
    · rename_i hpre
      simp only [Option.some.injEq, Prod.mk.injEq] at h
      obtain ⟨ha, hb⟩ := h
      subst ha; subst hb
      simpa using isPrefixOf_eq_append pat (c :: t) hpre
    · cases hsp : splitFirst pat t with
      | none => rw [hsp] at h; simp at h
      | some ab =>
        rw [hsp] at h
        simp only [Option.map_some', Option.some.injEq, Prod.mk.injEq] at h
        obtain ⟨ha, hb⟩ := h
        subst ha; subst hb
        have := ih ab.1 ab.2 (by rw [hsp])
        simp only [List.cons_append]
        rw [← this]

theorem splitFirst_first (pat : Str) :
    ∀ s a b : Str, splitFirst pat s = some (a, b) →
      ∀ a2 b2 : Str, s = a2 ++ pat ++ b2 → a.length ≤ a2.length := by
  intro s
  induction s with
  | nil =>
    intro a b h a2 b2 _
    simp only [splitFirst] at h
    split at h
    · simp only [Option.some.injEq, Prod.mk.injEq] at h
      obtain ⟨ha, _⟩ := h
      subst ha
      simp
    · exact absurd h (by simp)
  | cons c t ih =>
    intro a b h a2 b2 heq
    simp only [splitFirst] at h
    split at h
    · simp only [Option.some.injEq, Prod.mk.injEq] at h
      obtain ⟨ha, _⟩ := h
      subst ha
      simp
    · rename_i hnpre
      cases hsp : splitFirst pat t with
      | none => rw [hsp] at h; simp at h
      | some ab =>
        rw [hsp] at h
        simp only [Option.map_some', Option.some.injEq, Prod.mk.injEq] at h
        obtain ⟨ha, _⟩ := h
        subst ha
        cases a2 with
        | nil =>
          exfalso
          apply hnpre
          rw [heq]
          simp [isPrefixOf_append_self]
        | cons c2 a2t =>
          simp only [List.cons_append, List.cons.injEq] at heq
          obtain ⟨_, ht⟩ := heq
          have := ih ab.1 ab.2 (by rw [hsp]) a2t b2 ht
          simp only [List.length_cons]
          omega

theorem evFATruthy_isSome (c : EvState) (h : evFATruthy c = true) :
    c.final_answer.isSome = true := by
  unfold evFATruthy at h
  cases hc : c.final_answer with
  | none => rw [hc] at h; simp at h
  | some a => simp

theorem evFATruthy_of_some (c : EvState) (a : Str) (h : c.final_answer = some a)
    (h2 : a ≠ []) : evFATruthy c = true := by
  unfold evFATruthy
  rw [h]
  cases a with
  | nil => exact absurd rfl h2
  | cons x xs => rfl

theorem evFATruthy_of_none (c : EvState) (h : c.final_answer = none) :
    evFATruthy c = false := by
  unfold evFATruthy
  rw [h]

theorem evFATruthy_of_empty (c : EvState) (h : c.final_answer = some []) :
    evFATruthy c = false := by
  unfold evFATruthy
  rw [h]
  rfl

theorem truthyEv_of_fa (c : EvState) (h : c.final_answer.isSome = true) :
    truthyEv c = true := by
  unfold truthyEv
  rw [h]
  rfl

/-! ## Pipeline wiring lemmas (for C2) -/

theorem execStages_error_halts :
    ∀ l : List StageSpec, routeStopsOnError l →
      ∀ (st : WFState) (c : Option GResult) (i : Nat) (nm : Str) (s2 : WFState)
        (ch : Option GResult),
        (execStages l st c).get? i = some (nm, s2, ch) → s2.status = errS →
        (execStages l st c).length = i + 1 := by
  intro l
  induction l with
  | nil =>
    intro _ st c i nm s2 ch h _
    simp [execStages] at h
  | cons sp rest ih =>
    intro hl st c i nm s2 ch h herr
    cases i with
    | zero =>
      simp only [execStages, List.get?_cons_zero, Option.some.injEq] at h
      have h1 : (sp.2.1 st c).1 = s2 := by
        have := congrArg (fun p => p.2.1) h
        simpa using this
      have hroute : sp.2.2 (sp.2.1 st c).1 = ENDs :=
        hl sp (List.mem_cons_self _ _) _ (h1 ▸ herr)
      simp [execStages, hroute]
    | succ i =>
      simp only [execStages, List.get?_cons_succ] at h
      by_cases hc : sp.2.2 (sp.2.1 st c).1 = ENDs
      · rw [if_pos hc] at h
        simp at h
      · rw [if_neg hc] at h
        have hrest : routeStopsOnError rest := fun sp2 hsp2 s hs =>
          hl sp2 (List.mem_cons_of_mem _ hsp2) s hs
        have := ih hrest (sp.2.1 st c).1 (sp.2.1 st c).2 i nm s2 ch h herr
        simp only [execStages, if_neg hc, List.length_cons]
        omega

theorem wStages_routes_stop (fR fD fF fC fI : NodeFn) :
    routeStopsOnError (wStages fR fD fF fC fI) := by
  intro sp hsp s hs
  simp only [wStages, List.mem_cons] at hsp
  rcases hsp with h | h | h | h | h | h
  case _ => subst h; simp [route_after_research, hs]
  case _ => subst h; simp [route_after_draft, hs]
  case _ => subst h; simp [route_after_fact_check, hs]
  case _ => subst h; simp [route_after_citation, hs]
  case _ => subst h; simp [route_after_improve, hs]
  case _ => simp at h

/-! ## Claim theorems -/

/-- C2: after any stage of the wired pipeline returns a state with status
"error", the run terminates immediately: the execution trace ends right at
that stage, so no subsequent stage function runs on that state. Stated for
arbitrary node functions, since the wiring (edges plus the routing
functions of workflow.py 216-263) is independent of the node bodies; the
concrete pipeline instantiates them with the five source nodes. -/
theorem claim_C2_error_terminates (fR fD fF fC fI : NodeFn) (st0 : WFState)
    (c0 : Option GResult) (i : Nat) (nm : Str) (s2 : WFState) (ch : Option GResult)
    (hget : (wiredTrace fR fD fF fC fI st0 c0).get? i = some (nm, s2, ch))
    (herr : s2.status = errS) :
    (wiredTrace fR fD fF fC fI st0 c0).length = i + 1 :=
  execStages_error_halts (wStages fR fD fF fC fI)
    (wStages_routes_stop fR fD fF fC fI) st0 c0 i nm s2 ch hget herr

/-- Witness for C2: a research stage that errors ends the trace at length
one. -/
theorem claim_C2_witness :
    (wiredTrace errNodeW passNodeW passNodeW passNodeW passNodeW st0W none).get? 0 =
      some (researchN, stErrW, none) ∧
    (wiredTrace errNodeW passNodeW passNodeW passNodeW passNodeW st0W none).length =
      0 + 1 :=
  ⟨by decide,
   claim_C2_error_terminates errNodeW passNodeW passNodeW passNodeW passNodeW st0W
     none 0 researchN stErrW none (by decide) (by decide)⟩

/-- C4: the improve stage selects the draft to improve by the precedence
citation final draft, else fact-check corrected draft, else the initial
draft, then sets the final answer to the improved text and the status to
complete (workflow.py 154-192). -/
theorem claim_C4_improve_precedence (o : Oracles) (st : WFState) (c : Option GResult) :
    (∀ d, st.citation_result.final_draft = some d →
        (improve_node o st c).1 =
          { st with final_answer := DraftingAgent.improve_answer o st.research_topic d,
                    status := compS }) ∧
    (∀ d, st.citation_result.final_draft = none →
        st.fact_check_result.corrected_draft = some d →
        (improve_node o st c).1 =
          { st with final_answer := DraftingAgent.improve_answer o st.research_topic d,
                    status := compS }) ∧
    (∀ d, st.citation_result.final_draft = none →
        st.fact_check_result.corrected_draft = none →
        st.draft_result.initial_draft = some d →
        (improve_node o st c).1 =
          { st with final_answer := DraftingAgent.improve_answer o st.research_topic d,
                    status := compS }) := by
  refine ⟨?_, ?_, ?_⟩
  · intro d h1
    simp [improve_node, h1]
  · intro d h1 h2
    simp [improve_node, h1, h2]
  · intro d h1 h2 h3
    simp [improve_node, h1, h2, h3]

/-- Witness for C4: each precedence branch evaluated at a concrete state. -/
theorem claim_C4_witness :
    (improve_node oBase stCitW none).1 =
      { stCitW with final_answer := DraftingAgent.improve_answer oBase stCitW.research_topic ansAS,
                    status := compS } ∧
    (improve_node oBase stFCW none).1 =
      { stFCW with final_answer := DraftingAgent.improve_answer oBase stFCW.research_topic ansAS,
                    status := compS } ∧
    (improve_node oBase stDrW none).1 =
      { stDrW with final_answer := DraftingAgent.improve_answer oBase stDrW.research_topic ansAS,
                    status := compS } :=
  ⟨(claim_C4_improve_precedence oBase stCitW none).1 ansAS (by decide),
   (claim_C4_improve_precedence oBase stFCW none).2.1 ansAS (by decide) (by decide),
   (claim_C4_improve_precedence oBase stDrW none).2.2 ansAS (by decide) (by decide)
     (by decide)⟩

/-- C9: in every run the side channel starts empty (the reset at
workflow.py 330, the `none` the pipeline's channel threading begins from)
and is written exactly once, by the improve stage and by no other stage. -/
theorem claim_C9_side_channel (o : Oracles) (topic depth : Str) (n : Nat) :
    channelWrites none (runPipeline o topic depth n) = [impN] := rfl

/-- C10: the result of run_research_workflow is independent of the two skip
flags, which are forced to False (workflow.py 352-354) and never read. -/
theorem claim_C10_flags_ignored (o : Oracles) (topic depth : Str) (n : Nat)
    (sfc sc sfc2 sc2 : Bool) (events : List Event) :
    run_research_workflow o topic depth n sfc sc events =
      run_research_workflow o topic depth n sfc2 sc2 events := rfl

/-! ## Reconciler lemmas -/

theorem reconcile_none (topic : Str) (acc : LoopAcc) :
    reconcile topic none acc = reconcileR2 topic acc := rfl

theorem r2_skip (topic : Str) (acc : LoopAcc) (h : ruleTwoFails acc) :
    reconcileR2 topic acc = reconcileR3 topic acc := by
  rcases h with h | ⟨c, hc, hfa⟩
  · simp [reconcileR2, h]
  · rcases hfa with hfa | hfa
    · simp [reconcileR2, hc, evFATruthy_of_none c hfa]
    · simp [reconcileR2, hc, evFATruthy_of_empty c hfa]

theorem r3_skip (topic : Str) (acc : LoopAcc) (h : acc.final_answer_text = []) :
    reconcileR3 topic acc = reconcileR4 topic acc := by
  unfold reconcileR3
  rw [h]
  simp

theorem r4_skip (topic : Str) (acc : LoopAcc) (h : ruleFourFails acc) :
    reconcileR4 topic acc = reconcileFinal topic acc := by
  rcases h with h | ⟨li, hli, hfa⟩
  · simp [reconcileR4, h]
  · simp [reconcileR4, hli, hfa]

/-- Rule 2 in isolation: a captured complete state with a non-empty final
answer is returned. -/
theorem reconcile_rule2 (topic : Str) (acc : LoopAcc) (c : EvState) (a : Str)
    (hc : acc.complete_state = some c) (hfa : c.final_answer = some a)
    (hne : a ≠ []) :
    reconcile topic none acc =
      .ok { research_topic := topic, status := compS,
            research_results := some (c.research_results.getD emptyRR),
            final_answer := some a } := by
  have ht : truthyEv c = true := truthyEv_of_fa c (by simp [hfa])
  have he : evFATruthy c = true := evFATruthy_of_some c a hfa hne
  simp [reconcile, reconcileR2, hc, ht, he, hfa]

theorem reconcileFinal_complete_isSome (topic : Str) (acc : LoopAcc) (r : RWResult)
    (h : reconcileFinal topic acc = .ok r) (hs : r.status = compS) :
    r.final_answer.isSome = true := by
  unfold reconcileFinal at h
  split at h
  · simp only [Except.ok.injEq] at h
    subst h
    exact absurd (show errS = compS from hs) (by decide)
  · rename_i fs _
    split at h
    · rename_i hb
      simp only [Except.ok.injEq] at h
      subst h
      exact evFATruthy_isSome fs hb
    · split at h
      · rename_i hcond
        simp only [Except.ok.injEq] at h
        subst h
        have hs2 : fs.status.getD errS = compS := hs
        rw [hcond.1] at hs2
        exact absurd hs2 (by decide)
      · simp only [Except.ok.injEq] at h
        subst h
        exact absurd (show errS = compS from hs) (by decide)

theorem reconcileR4_complete_isSome (topic : Str) (acc : LoopAcc) (r : RWResult)
    (h : reconcileR4 topic acc = .ok r) (hs : r.status = compS) :
    r.final_answer.isSome = true := by
  unfold reconcileR4 at h
  split at h
  · rename_i li _
    split at h
    · simp only [Except.ok.injEq] at h
      subst h
      rfl
    · exact reconcileFinal_complete_isSome topic acc r h hs
  · exact reconcileFinal_complete_isSome topic acc r h hs

theorem reconcileR3_complete_isSome (topic : Str) (acc : LoopAcc) (r : RWResult)
    (h : reconcileR3 topic acc = .ok r) (hs : r.status = compS) :
    r.final_answer.isSome = true := by
  unfold reconcileR3 at h
  split at h
  · split at h
    · exact absurd h (by simp)
    · simp only [Except.ok.injEq] at h
      subst h
      rfl
  · exact reconcileR4_complete_isSome topic acc r h hs

theorem reconcileR2_complete_isSome (topic : Str) (acc : LoopAcc) (r : RWResult)
    (h : reconcileR2 topic acc = .ok r) (hs : r.status = compS) :
    r.final_answer.isSome = true := by
  unfold reconcileR2 at h
  split at h
  · rename_i c _
    split at h
    · rename_i hb
      simp only [Except.ok.injEq] at h
      subst h
      exact evFATruthy_isSome c (by
        have hb2 := hb
        simp only [Bool.and_eq_true] at hb2
        exact hb2.2)
    · exact reconcileR3_complete_isSome topic acc r h hs
  · exact reconcileR3_complete_isSome topic acc r h hs

/-! ## C1 -/

/-- C1: the post-stream selection applies exactly the five-rule precedence,
first match wins: the side-channel improve result; else the captured
complete state with non-empty final answer; else the last non-empty
final-answer text observed in the stream; else the improve-exit snapshot
with a final-answer key; else the last streamed snapshot with a non-empty
final answer. In particular, when a rule-2 and a rule-3 candidate both
exist with different answers, rule 2's candidate is returned. -/
theorem claim_C1_reconciler_precedence (topic : Str) (g : Option GResult)
    (acc : LoopAcc) :
    (∀ r, g = some r → reconcile topic g acc = .ok (rwOfG r)) ∧
    (∀ c a, g = none → acc.complete_state = some c → c.final_answer = some a →
        a ≠ [] →
        reconcile topic g acc =
          .ok { research_topic := topic, status := compS,
                research_results := some (c.research_results.getD emptyRR),
                final_answer := some a }) ∧
    (∀ r, g = none → ruleTwoFails acc → acc.final_answer_text ≠ [] →
        reconcile topic g acc = .ok r →
        r.status = compS ∧ r.final_answer = some acc.final_answer_text) ∧
    (∀ li a, g = none → ruleTwoFails acc → acc.final_answer_text = [] →
        acc.lastImprove = some li → li.final_answer = some a →
        reconcile topic g acc =
          .ok { research_topic := topic, status := compS,
                research_results := some (li.research_results.getD emptyRR),
                final_answer := some a }) ∧
    (∀ fs a, g = none → ruleTwoFails acc → acc.final_answer_text = [] →
        ruleFourFails acc → acc.final_state_raw = some fs →
        fs.final_answer = some a → a ≠ [] →
        reconcile topic g acc =
          .ok { research_topic := topic, status := compS,
                research_results := some (fs.research_results.getD emptyRR),
                final_answer := some a }) ∧
    (∀ c a, g = none → acc.complete_state = some c → c.final_answer = some a →
        a ≠ [] → acc.final_answer_text ≠ [] → a ≠ acc.final_answer_text →
        ∃ r, reconcile topic g acc = .ok r ∧ r.final_answer = some a ∧
          r.final_answer ≠ some acc.final_answer_text) := by
  refine ⟨?_, ?_, ?_, ?_, ?_, ?_⟩
  · intro r hg
    subst hg
    rfl
  · intro c a hg hc hfa hne
    subst hg
    exact reconcile_rule2 topic acc c a hc hfa hne
  · intro r hg h2 h3 hok
    subst hg
    rw [reconcile_none, r2_skip topic acc h2] at hok
    unfold reconcileR3 at hok
    rw [if_pos h3] at hok
    split at hok
    · exact absurd hok (by simp)
    · simp only [Except.ok.injEq] at hok
      subst hok
      exact ⟨rfl, rfl⟩
  · intro li a hg h2 h3 hli hfa
    subst hg
    rw [reconcile_none, r2_skip topic acc h2, r3_skip topic acc h3]
    have ht : truthyEv li = true := truthyEv_of_fa li (by simp [hfa])
    simp [reconcileR4, hli, ht, hfa]
  · intro fs a hg h2 h3 h4 hfs hfa hne
    subst hg
    rw [reconcile_none, r2_skip topic acc h2, r3_skip topic acc h3,
      r4_skip topic acc h4]
    have he : evFATruthy fs = true := evFATruthy_of_some fs a hfa hne
    simp [reconcileFinal, hfs, he, hfa]
  · intro c a hg hc hfa hne hfat hab
    subst hg
    refine ⟨_, reconcile_rule2 topic acc c a hc hfa hne, rfl, ?_⟩
    simpa using hab

/-- Witness for C1: each rule applied at a concrete accumulator where its
conditions hold. -/
theorem claim_C1_witness :
    reconcile t0S (some gW) initAcc = .ok (rwOfG gW) ∧
    reconcile t0S none accR2W =
      .ok { research_topic := t0S, status := compS,
            research_results := some (csW.research_results.getD emptyRR),
            final_answer := some ansAS } ∧
    ((reconcile t0S none accR3W =
        .ok { research_topic := t0S, status := compS,
              final_answer := some accR3W.final_answer_text,
              research_results := some (rsEvW.research_results.getD emptyRR) }) ∧
      ({ research_topic := t0S, status := compS,
         final_answer := some accR3W.final_answer_text,
         research_results := some (rsEvW.research_results.getD emptyRR) } :
          RWResult).status = compS) ∧
    reconcile t0S none accR4W =
      .ok { research_topic := t0S, status := compS,
            research_results := some (csEmptyW.research_results.getD emptyRR),
            final_answer := some [] } ∧
    reconcile t0S none accR5W =
      .ok { research_topic := t0S, status := compS,
            research_results := some (fsW.research_results.getD emptyRR),
            final_answer := some ansAS } ∧
    ∃ r, reconcile t0S none accR23W = .ok r ∧ r.final_answer = some ansAS ∧
      r.final_answer ≠ some accR23W.final_answer_text := by
  refine ⟨?_, ?_, ⟨?_, ?_⟩, ?_, ?_, ?_⟩
  · exact (claim_C1_reconciler_precedence t0S (some gW) initAcc).1 gW rfl
  · exact (claim_C1_reconciler_precedence t0S none accR2W).2.1 csW ansAS rfl rfl rfl
      (by decide)
  · rfl
  · exact ((claim_C1_reconciler_precedence t0S none accR3W).2.2.1 _ rfl (Or.inl rfl)
      (by decide) rfl).1
  · exact (claim_C1_reconciler_precedence t0S none accR4W).2.2.2.1 csEmptyW [] rfl
      (Or.inr ⟨csEmptyW, rfl, Or.inr rfl⟩) rfl rfl rfl
  · exact (claim_C1_reconciler_precedence t0S none accR5W).2.2.2.2.1 fsW ansAS rfl
      (Or.inl rfl) rfl (Or.inl rfl) rfl rfl (by decide)
  · exact (claim_C1_reconciler_precedence t0S none accR23W).2.2.2.2.2 csW ansAS rfl
      rfl rfl (by decide) (by decide) (by decide)

/-! ## C5 -/

/-- C5 (amended): every reconciled result with status "complete" has a
final_answer key; and a full run whose improve-stage output text is
non-empty ends complete with exactly that non-empty answer. Non-emptiness
of the answer is not unconditional (see the counterexample), which is the
amendment. -/
theorem claim_C5_complete_has_answer :
    (∀ (topic : Str) (g : Option GResult) (acc : LoopAcc) (r : RWResult),
        reconcile topic g acc = .ok r → r.status = compS →
        r.final_answer.isSome = true) ∧
    (∀ (o : Oracles) (topic depth : Str) (n : Nat) (sfc sc : Bool)
        (events : List Event),
        invokeWrapper o.improveLLM ≠ [] →
        run_research_workflow o topic depth n sfc sc events =
          .ok { research_topic := topic, status := compS,
                research_results := some (ResearchAgent.run o topic n depth),
                final_answer := some (invokeWrapper o.improveLLM) } ∧
        some (invokeWrapper o.improveLLM) ≠ some ([] : Str)) := by
  constructor
  · intro topic g acc r h hs
    unfold reconcile at h
    cases g with
    | some gr =>
      simp only [Except.ok.injEq] at h
      subst h
      rfl
    | none => exact reconcileR2_complete_isSome topic acc r h hs
  · intro o topic depth n sfc sc events h
    exact ⟨rfl, by simpa using h⟩

/-- Counterexample for C5: a run whose improve output is the empty string
returns status "complete" with an empty final answer. -/
theorem claim_C5_counterexample :
    statusAnswerOf (run_research_workflow oEmptyImprove t0S basicS 2 false false []) =
      some (compS, some ([] : Str)) := by decide

/-- Witness for C5. -/
theorem claim_C5_witness :
    (rwOfG gW).final_answer.isSome = true ∧
    run_research_workflow oBase t0S basicS 2 false false [] =
      .ok { research_topic := t0S, status := compS,
            research_results := some (ResearchAgent.run oBase t0S 2 basicS),
            final_answer := some (invokeWrapper oBase.improveLLM) } :=
  ⟨claim_C5_complete_has_answer.1 t0S (some gW) initAcc (rwOfG gW) rfl
      (by decide),
   (claim_C5_complete_has_answer.2 oBase t0S basicS 2 false false []
      (by decide)).1⟩

/-! ## C6 -/

/-- C6 (amended): the research stage always returns status "draft" — in
particular when every search errors (all hit lists are empty) and when the
synthesis call fails, in which case the synthesis text carries the caught
error; the "Research error" error state exists in the node (last conjunct)
but is produced only if the agent itself raises, which its internal
handlers prevent. -/
theorem claim_C6_research_degrades (o : Oracles) (st : WFState) (c : Option GResult) :
    (research_node o st c).1.status = draftS ∧
    (∀ e, o.synthesisLLM = .error e →
        ((research_node o st c).1.research_results).synthesis =
          some (errOccurredS ++ e)) ∧
    (∀ msg : Str → Str, (∀ q, o.tavilyApi q = .error (msg q)) →
        ∀ pr ∈ ((research_node o st c).1.research_results).search_results.getD [],
          pr.2 = ([] : List Hit)) ∧
    (∀ (e : Str) (s2 : WFState), research_node_on (.error e) s2 =
        { s2 with status := errS, error := researchErrS ++ e }) := by
  refine ⟨rfl, ?_, ?_, ?_⟩
  · intro e he
    simp [research_node, research_node_on, ResearchAgent.run, invokeWrapper, he]
  · intro msg hm pr hpr
    simp only [research_node, research_node_on, ResearchAgent.run,
      Option.getD_some] at hpr
    rw [List.mem_map] at hpr
    obtain ⟨q, _, hq⟩ := hpr
    have h2 : pr.2 = tavilySearch o q := by rw [← hq]
    rw [h2]
    unfold tavilySearch
    by_cases ho : o.tavilyOk = false
    · rw [if_pos ho]
    · rw [if_neg ho, hm q]
  · intro e s2
    rfl

/-- Counterexample for C6: with a failing synthesis call the research stage
still returns status "draft", not "error". -/
theorem claim_C6_counterexample :
    (research_node oSynthFail st0W none).1.status = draftS ∧
    ((research_node oSynthFail st0W none).1.research_results).synthesis =
      some (errOccurredS ++ boomS) ∧
    (draftS == errS) = false := by decide

/-- Witness for C6. -/
theorem claim_C6_witness :
    ((research_node oSynthFail st0W none).1.research_results).synthesis =
      some (errOccurredS ++ boomS) ∧
    ((errBoomS, ([] : List Hit)).2 = ([] : List Hit)) ∧
    research_node_on (.error boomS) st0W =
      { st0W with status := errS, error := researchErrS ++ boomS } :=
  ⟨(claim_C6_research_degrades oSynthFail st0W none).2.1 boomS rfl,
   (claim_C6_research_degrades oQueryFail st0W none).2.2.1 (fun _ => boomS)
     (fun _ => rfl) (errBoomS, []) (by decide),
   (claim_C6_research_degrades oBase st0W none).2.2.2 boomS st0W⟩

/-! ## C7 -/

/-- C7: evaluation at the failing input. When the query-generation call
raises, the chain wrapper converts the failure to the text
"Error occurred: boom", so the generated query list is that error text —
not the raw topic — and exactly one search is performed, with the error
text as the query. The topic fallback at research_agent.py 110-113 is
unreachable. -/
theorem claim_C7_query_failure_behavior :
    ResearchAgent.generate_search_queries oQueryFail t0S 3 = [errBoomS] ∧
    (errBoomS == t0S) = false ∧
    (ResearchAgent.run oQueryFail t0S 3 basicS).queries = some [errBoomS] ∧
    (ResearchAgent.run oQueryFail t0S 3 basicS).search_results =
      some [(errBoomS, [])] := by decide

/-! ## C8 -/

/-- C8 (amended): when no reconciliation rule finds a usable final answer
and the final state carries no explicit error, the selection returns status
"error" with the message "Research completed but no final answer was
produced." — which contains, but is not equal to, the claimed message
"no final answer was produced." -/
theorem claim_C8_no_answer_error (topic : Str) (acc : LoopAcc) (fs : EvState)
    (h2 : ruleTwoFails acc) (h3 : acc.final_answer_text = [])
    (h4 : ruleFourFails acc) (h5 : acc.final_state_raw = some fs)
    (h6 : fs.final_answer = none ∨ fs.final_answer = some [])
    (h7 : fs.error = none) :
    reconcile topic none acc =
      .ok { research_topic := topic, status := errS,
            research_results := fs.research_results, error := some noAnswerS } ∧
    containsSub claimAnswerMsgS noAnswerS = true := by
  constructor
  · rw [reconcile_none, r2_skip topic acc h2, r3_skip topic acc h3,
      r4_skip topic acc h4]
    have he : evFATruthy fs = false := by
      rcases h6 with h | h
      · exact evFATruthy_of_none fs h
      · exact evFATruthy_of_empty fs h
    simp [reconcileFinal, h5, he, h7]
  · decide

/-- Counterexample for C8: the message returned is the longer string, not
the exact text the claim states. -/
theorem claim_C8_counterexample :
    statusErrorOf (reconcile t0S none (processEvents initAcc [ev8])) =
      some (errS, some noAnswerS) ∧
    (noAnswerS == claimAnswerMsgS) = false ∧
    containsSub claimAnswerMsgS noAnswerS = true := by decide

/-! ## C3 -/

theorem guard_false (vr : Str)
    (hneg : ¬(containsSub mVR vr = true ∧ containsSub mFD vr = true)) :
    (containsSub mVR vr && containsSub mFD vr) = false := by
  cases hA : containsSub mVR vr with
  | false => simp
  | true =>
    cases hB : containsSub mFD vr with
    | false => simp
    | true => exact absurd ⟨hA, hB⟩ hneg

/-- C3: the validation-split fallback chain. If both section markers occur,
the text splits exactly at the first occurrence of the final-document
marker (the part before it, with every report-marker occurrence removed and
stripped, is the report; the stripped part after it is the document); else
if the separator regex matches, the text is cut at the match's start and
end; else if the text contains a blank-line break, it splits at the first
one; else the whole text is the document and the report is exactly
"No validation issues found." -/
theorem claim_C3_validation_split (vr : Str) :
    (∀ pre post, containsSub mVR vr = true → splitFirst mFD vr = some (pre, post) →
        vr = pre ++ mFD ++ post ∧
        (∀ a2 b2, vr = a2 ++ mFD ++ b2 → pre.length ≤ a2.length) ∧
        splitValidation vr = (pyStrip (removeAll mVR pre), pyStrip post)) ∧
    (∀ se : Nat × Nat, ¬(containsSub mVR vr = true ∧ containsSub mFD vr = true) →
        reSearch vr = some se →
        splitValidation vr = (pyStrip (vr.take se.1), pyStrip (vr.drop se.2))) ∧
    (∀ p1 p2, ¬(containsSub mVR vr = true ∧ containsSub mFD vr = true) →
        reSearch vr = none → splitFirst nlnl vr = some (p1, p2) →
        vr = p1 ++ nlnl ++ p2 ∧
        (∀ a2 b2, vr = a2 ++ nlnl ++ b2 → p1.length ≤ a2.length) ∧
        splitValidation vr = (pyStrip p1, pyStrip p2)) ∧
    (¬(containsSub mVR vr = true ∧ containsSub mFD vr = true) →
        reSearch vr = none → splitFirst nlnl vr = none →
        splitValidation vr = (noIssuesS, vr)) := by
  refine ⟨?_, ?_, ?_, ?_⟩
  · intro pre post h1 h2
    have hFD : containsSub mFD vr = true := by simp [containsSub, h2]
    refine ⟨splitFirst_sound mFD vr pre post h2,
      splitFirst_first mFD vr pre post h2, ?_⟩
    simp [splitValidation, h1, hFD, h2]
  · intro se hneg hre
    simp [splitValidation, guard_false vr hneg, hre]
  · intro p1 p2 hneg hre h2
    refine ⟨splitFirst_sound nlnl vr p1 p2 h2,
      splitFirst_first nlnl vr p1 p2 h2, ?_⟩
    simp [splitValidation, guard_false vr hneg, hre, h2]
  · intro hneg hre h2
    simp [splitValidation, guard_false vr hneg, hre, h2]

/-- Witness for C3: each heuristic evaluated on a concrete text. -/
theorem claim_C3_witness :
    splitValidation w1v = (pyStrip (removeAll mVR w1pre), pyStrip w1post) ∧
    splitValidation w2v = (pyStrip (w2v.take 11), pyStrip (w2v.drop 16)) ∧
    splitValidation w3v = (pyStrip w3p1, pyStrip w3p2) ∧
    splitValidation w4v = (noIssuesS, w4v) :=
  ⟨((claim_C3_validation_split w1v).1 w1pre w1post (by decide) (by decide)).2.2,
   (claim_C3_validation_split w2v).2.1 (11, 16) (by decide) (by decide),
   ((claim_C3_validation_split w3v).2.2.1 w3p1 w3p2 (by decide) (by decide)
     (by decide)).2.2,
   (claim_C3_validation_split w4v).2.2.2 (by decide) (by decide) (by decide)⟩

/-- Witness for C8. -/
theorem claim_C8_witness :
    reconcile t0S none accC8W =
      .ok { research_topic := t0S, status := errS,
            research_results := fsEmptyW.research_results,
            error := some noAnswerS } ∧
    containsSub claimAnswerMsgS noAnswerS = true :=
  claim_C8_no_answer_error t0S accC8W fsEmptyW (Or.inl rfl) rfl (Or.inl rfl) rfl
    (Or.inl rfl) rfl

end DeepResearch
